import Mathlib

/-!
Verification of the canonical metadata and query-execution layer of the
wren-engine ibis server, centred on the Snowflake metadata extractor
(`app/model/metadata/snowflake.py`) together with the row-limit,
timestamp-formatting and validation-rule behaviour exercised by the
repository's connector tests.

Python strings are embedded as Lean `String`; Python's `str.lower` /
`str.upper` are embedded as character-wise ASCII case folding (every key of
the type-mapping tables and every nullable-indicator string in the source is
ASCII).  Python dicts built by insertion are embedded as association lists
that preserve insertion order, matching Python 3.7+ dict semantics.
-/

namespace Wren

/-- Embedding of Python `str.lower` (ASCII repertoire): lower-case each
character of the string. -/
def pyLower (s : String) : String := String.mk (s.data.map Char.toLower)

/-- Embedding of Python `str.upper` (ASCII repertoire): upper-case each
character of the string. -/
def pyUpper (s : String) : String := String.mk (s.data.map Char.toUpper)

/-- Python `str.upper` maps characters by the full Unicode case tables,
not only ASCII.  This embeds its action on the characters considered
here: U+0131 (ı, LATIN SMALL LETTER DOTLESS I) uppercases to `I`; ASCII
letters fold as usual; other characters are left unchanged. -/
def pyUpperChar (c : Char) : Char :=
  if c = 'ı' then 'I' else Char.toUpper c

/-- Python `str.upper` with the Unicode mapping of `pyUpperChar`. -/
def pyUpperUnicode (s : String) : String := String.mk (s.data.map pyUpperChar)

theorem toNat_ofNat_valid (n : Nat) (h : Nat.isValidChar n) :
    (Char.ofNat n).toNat = n := by
  unfold Char.ofNat
  rw [dif_pos h]
  rfl

theorem char_toLower_toUpper (c : Char) :
    Char.toLower (Char.toUpper c) = Char.toLower c := by
  simp only [Char.toUpper, Char.toLower]
  split
  · rename_i h
    have hv : Nat.isValidChar (c.toNat - 32) := Or.inl (by omega)
    rw [toNat_ofNat_valid _ hv]
    rw [if_pos (by omega : (c.toNat - 32) ≥ 65 ∧ (c.toNat - 32) ≤ 90)]
    rw [if_neg (by omega : ¬(c.toNat ≥ 65 ∧ c.toNat ≤ 90))]
    rw [show c.toNat - 32 + 32 = c.toNat by omega, Char.ofNat_toNat]
  · rfl

theorem char_toLower_toLower (c : Char) :
    Char.toLower (Char.toLower c) = Char.toLower c := by
  simp only [Char.toLower]
  split
  · rename_i h
    have hv : Nat.isValidChar (c.toNat + 32) := Or.inl (by omega)
    rw [toNat_ofNat_valid _ hv]
    rw [if_neg (by omega : ¬(c.toNat + 32 ≥ 65 ∧ c.toNat + 32 ≤ 90))]
  · rfl

theorem pyLower_pyUpper (s : String) : pyLower (pyUpper s) = pyLower s := by
  unfold pyLower pyUpper
  simp only [List.map_map]
  congr 1
  exact List.map_congr_left (fun c _ => char_toLower_toUpper c)

theorem pyLower_pyLower (s : String) : pyLower (pyLower s) = pyLower s := by
  unfold pyLower
  simp only [List.map_map]
  congr 1
  exact List.map_congr_left (fun c _ => char_toLower_toLower c)

/-- The canonical column-type enumeration (`WrenEngineColumnType` in
`app/model/metadata/dto.py`), restricted to the members the Snowflake
mapping table and the spec mention. -/
inductive WrenEngineColumnType where
  | NUMERIC
  | INTEGER
  | BIGINT
  | SMALLINT
  | TINYINT
  | FLOAT4
  | FLOAT8
  | DOUBLE
  | REAL
  | VARCHAR
  | CHAR
  | STRING
  | TEXT
  | BOOLEAN
  | DATE
  | TIMESTAMP
  | TIMESTAMPTZ
  | BYTEA
  | UNKNOWN
  deriving DecidableEq, Repr

open WrenEngineColumnType

/-- The `switcher` dictionary of
`SnowflakeMetadata._transform_column_type`, key for key and value for
value, in source order. -/
def switcher : List (String × WrenEngineColumnType) :=
  [ ("number", NUMERIC)
  , ("decimal", NUMERIC)
  , ("numeric", NUMERIC)
  , ("int", INTEGER)
  , ("integer", INTEGER)
  , ("bigint", BIGINT)
  , ("smallint", SMALLINT)
  , ("tinyint", TINYINT)
  , ("byteint", TINYINT)
  , ("float4", FLOAT4)
  , ("float", FLOAT8)
  , ("float8", FLOAT8)
  , ("double", DOUBLE)
  , ("double precision", DOUBLE)
  , ("real", REAL)
  , ("varchar", VARCHAR)
  , ("char", CHAR)
  , ("character", CHAR)
  , ("string", STRING)
  , ("text", TEXT)
  , ("boolean", BOOLEAN)
  , ("date", DATE)
  , ("datetime", TIMESTAMP)
  , ("timestamp", TIMESTAMP)
  , ("timestamp_ntz", TIMESTAMP)
  , ("timestamp_tz", TIMESTAMPTZ)
  ]

/-- `SnowflakeMetadata._transform_column_type`: look the lower-cased native
type name up in `switcher`, defaulting to `UNKNOWN`
(`switcher.get(data_type.lower(), WrenEngineColumnType.UNKNOWN)`). -/
def transform_column_type (data_type : String) : WrenEngineColumnType :=
  (switcher.lookup (pyLower data_type)).getD UNKNOWN

/-- One raw introspection row of `SnowflakeMetadata.get_table_list`'s
information-schema query, with the selected fields.  The two comment fields
are nullable in the backend. -/
structure TableListRow where
  TABLE_CATALOG : String
  TABLE_SCHEMA : String
  TABLE_NAME : String
  COLUMN_NAME : String
  DATA_TYPE : String
  IS_NULLABLE : String
  COLUMN_COMMENT : Option String
  TABLE_COMMENT : Option String
  deriving DecidableEq, Repr

/-- `Column` of `app/model/metadata/dto.py`, with the fields
`SnowflakeMetadata` populates (`properties` is always `None` there). -/
structure Column where
  name : String
  type : WrenEngineColumnType
  notNull : Bool
  description : Option String
  properties : Option Unit
  deriving DecidableEq, Repr

/-- `TableProperties` of the dto, with the fields Snowflake populates. -/
structure TableProperties where
  schema : String
  catalog : String
  table : String
  deriving DecidableEq, Repr

/-- `Table` of the dto, with the fields Snowflake populates. -/
structure Table where
  name : String
  description : Option String
  columns : List Column
  properties : TableProperties
  primaryKey : String
  deriving DecidableEq, Repr

/-- `SnowflakeMetadata._format_compact_table_name`: `f"{schema}.{table}"`. -/
def _format_compact_table_name (schema table : String) : String :=
  schema ++ "." ++ table

/-- The compact table name `get_table_list` synthesizes for a row. -/
def rowKey (row : TableListRow) : String :=
  _format_compact_table_name row.TABLE_SCHEMA row.TABLE_NAME

/-- The `Column(...)` constructed from one row inside `get_table_list`'s
loop: name from `COLUMN_NAME`, type via `_transform_column_type`,
`notNull = (IS_NULLABLE.lower() == "no")`, description from
`COLUMN_COMMENT`, `properties=None`. -/
def mkColumn (row : TableListRow) : Column :=
  { name := row.COLUMN_NAME
  , type := transform_column_type row.DATA_TYPE
  , notNull := pyLower row.IS_NULLABLE == "no"
  , description := row.COLUMN_COMMENT
  , properties := none }

/-- The `Table(...)` shell constructed on first sighting of a compact name:
description from the row's `TABLE_COMMENT`, empty column list, empty
`primaryKey`. -/
def mkTableShell (key : String) (row : TableListRow) : Table :=
  { name := key
  , description := row.TABLE_COMMENT
  , columns := []
  , properties :=
      { schema := row.TABLE_SCHEMA
      , catalog := row.TABLE_CATALOG
      , table := row.TABLE_NAME }
  , primaryKey := "" }

/-- `unique_tables[schema_table].columns.append(...)`: append a column to
the entry of the given key (the first matching entry; keys are unique by
construction). -/
def appendColumn (tables : List (String × Table)) (key : String) (c : Column) :
    List (String × Table) :=
  match tables with
  | [] => []
  | (k, t) :: rest =>
    if k = key then (k, { t with columns := t.columns ++ [c] }) :: rest
    else (k, t) :: appendColumn rest key c

/-- `schema_table not in unique_tables`, negated: key membership in the
insertion-ordered dict. -/
def containsKey (tables : List (String × Table)) (key : String) : Bool :=
  tables.any (fun p => p.1 = key)

/-- One iteration of `get_table_list`'s `for row in response` loop over the
insertion-ordered dict `unique_tables`: initialize the table shell if the
compact name is new, then append the row's column to its table. -/
def get_table_list_step (tables : List (String × Table)) (row : TableListRow) :
    List (String × Table) :=
  let key := rowKey row
  let tables1 :=
    if containsKey tables key then tables
    else tables ++ [(key, mkTableShell key row)]
  appendColumn tables1 key (mkColumn row)

/-- `SnowflakeMetadata.get_table_list` from the raw introspection rows:
fold the loop over the rows starting from the empty dict, then take
`list(unique_tables.values())` (insertion order). -/
def get_table_list (rows : List TableListRow) : List Table :=
  (rows.foldl get_table_list_step []).map Prod.snd

/- Specification-side description of the grouping, used to state C3. -/

/-- Append a key to an accumulator unless already present. -/
def insertKey (acc : List String) (k : String) : List String :=
  if k ∈ acc then acc else acc ++ [k]

/-- The distinct keys of a list in order of first sighting. -/
def firstKeys (l : List String) : List String := l.foldl insertKey []

/-- The rows of one group, in row order. -/
def groupRows (rows : List TableListRow) (k : String) : List TableListRow :=
  rows.filter (fun r => rowKey r = k)

/-- The table the spec predicts for compact name `k`: shell fields from the
first row of the group, one column per row of the group in row order;
`none` when no row has that compact name. -/
def specTable (rows : List TableListRow) (k : String) : Option Table :=
  match groupRows rows k with
  | [] => none
  | r :: rs =>
    some
      { name := k
      , description := r.TABLE_COMMENT
      , columns := (r :: rs).map mkColumn
      , properties :=
          { schema := r.TABLE_SCHEMA
          , catalog := r.TABLE_CATALOG
          , table := r.TABLE_NAME }
      , primaryKey := "" }

/-- The keyed form of `specTable`, matching the accumulator of
`get_table_list_step`. -/
def specEntry (rows : List TableListRow) (k : String) : Option (String × Table) :=
  (specTable rows k).map (fun t => (k, t))

/- Constraints: `SnowflakeMetadata.get_constraints`. -/

/-- One row of `SHOW IMPORTED KEYS IN SCHEMA`, with the fields
`get_constraints` reads.  `pk_*` is the referenced (primary-key) side,
`fk_*` the referencing (foreign-key) side. -/
structure ShowImportedKeysRow where
  pk_schema_name : String
  pk_table_name : String
  pk_column_name : String
  fk_schema_name : String
  fk_table_name : String
  fk_column_name : String
  deriving DecidableEq, Repr

/-- `ConstraintType` of the dto (only `FOREIGN_KEY` is produced). -/
inductive ConstraintType where
  | FOREIGN_KEY
  deriving DecidableEq, Repr

/-- `Constraint` of the dto. -/
structure Constraint where
  constraintName : String
  constraintTable : String
  constraintColumn : String
  constraintedTable : String
  constraintedColumn : String
  constraintType : ConstraintType
  deriving DecidableEq, Repr

/-- `SnowflakeMetadata._format_constraint_name`:
`f"{table_name}_{column_name}_{referenced_table_name}_{referenced_column_name}"`. -/
def _format_constraint_name (table_name column_name referenced_table_name
    referenced_column_name : String) : String :=
  table_name ++ "_" ++ column_name ++ "_" ++ referenced_table_name ++ "_" ++
    referenced_column_name

/-- The `Constraint(...)` built from one `SHOW IMPORTED KEYS` row inside
`get_constraints`'s loop. -/
def mkConstraint (row : ShowImportedKeysRow) : Constraint :=
  { constraintName :=
      _format_constraint_name row.pk_table_name row.pk_column_name
        row.fk_table_name row.fk_column_name
  , constraintTable :=
      _format_compact_table_name row.pk_schema_name row.pk_table_name
  , constraintColumn := row.pk_column_name
  , constraintedTable :=
      _format_compact_table_name row.fk_schema_name row.fk_table_name
  , constraintedColumn := row.fk_column_name
  , constraintType := ConstraintType.FOREIGN_KEY }

/-- `SnowflakeMetadata.get_constraints` from the captured cursor rows: the
`for row in res` loop appending one `Constraint` per row to an initially
empty list. -/
def get_constraints (rows : List ShowImportedKeysRow) : List Constraint :=
  rows.foldl (fun constraints row => constraints ++ [mkConstraint row]) []

/-- Modelled from the spec: the Query Executor (`execute` of §4.4) is not
under `src/` — only its tests are.  Row-limit application: the executed
query's result set is first cut by any `LIMIT` embedded in the SQL text,
then by the caller-supplied limit, so the smaller of the two governs and
the caller limit never raises an embedded lower limit. -/
def executeWithLimit {α : Type} (rows : List α) (sqlLimit : Option Nat)
    (callerLimit : Option Nat) : List α :=
  let afterSql :=
    match sqlLimit with
    | some l => rows.take l
    | none => rows
  match callerLimit with
  | some l => afterSql.take l
  | none => afterSql

/-- Modelled from the spec: a timestamp-with-zone value as a backend
returns it — a wall-clock reading in some display zone together with that
zone's offset from UTC, both in seconds.  The result formatter of §4.4 is
not under `src/`. -/
structure ZonedTimestamp where
  localSeconds : Int
  offsetSeconds : Int
  deriving DecidableEq, Repr

/-- The instant a zoned reading denotes: wall-clock minus zone offset. -/
def toUTCInstant (t : ZonedTimestamp) : Int :=
  t.localSeconds - t.offsetSeconds

/-- Modelled from the spec: plain timestamps are formatted as
fixed-precision local-naive strings without a zone suffix. -/
def formatTimestamp (naiveSeconds : Int) : String :=
  toString naiveSeconds ++ ".000000"

/-- Modelled from the spec: timestamps-with-zone are normalized to UTC and
formatted as fixed-precision strings suffixed with a zone indicator. -/
def formatTimestamptz (t : ZonedTimestamp) : String :=
  toString (t.localSeconds - t.offsetSeconds) ++ ".000000 UTC"

/-- Modelled from the spec: the Validation Rule Engine (§4.5) is not under
`src/` — only its tests are.  The declared required parameter names of the
built-in `column_is_valid` rule, in declared order. -/
def column_is_valid_required : List String := ["modelName", "columnName"]

/-- Modelled from the spec: the first declared required parameter missing
from the supplied parameters map, if any. -/
def firstMissingParameter (required : List String)
    (parameters : List (String × String)) : Option String :=
  required.find? (fun p => (parameters.lookup p).isNone)

/-- Modelled from the spec: the parameter check of `run` — fail with a
`ParameterError` naming the first missing required parameter, in the
wording the tests assert. -/
def validateParameters (required : List String)
    (parameters : List (String × String)) : Except String Unit :=
  match firstMissingParameter required parameters with
  | some p => Except.error ("Missing required parameter: `" ++ p ++ "`")
  | none => Except.ok ()

/- Lemmas about first-sighting key order. -/

theorem mem_insertKey (acc : List String) (k x : String) :
    x ∈ insertKey acc k ↔ x ∈ acc ∨ x = k := by
  unfold insertKey
  split
  · rename_i h
    constructor
    · exact Or.inl
    · rintro (hx | rfl)
      · exact hx
      · exact h
  · simp

theorem mem_foldl_insertKey (l : List String) :
    ∀ (acc : List String) (x : String),
      x ∈ l.foldl insertKey acc ↔ x ∈ acc ∨ x ∈ l := by
  induction l with
  | nil => simp
  | cons k l ih =>
    intro acc x
    rw [List.foldl_cons, ih, mem_insertKey]
    simp only [List.mem_cons]
    tauto

theorem mem_firstKeys (l : List String) (x : String) :
    x ∈ firstKeys l ↔ x ∈ l := by
  rw [firstKeys, mem_foldl_insertKey]
  simp

theorem nodup_insertKey (acc : List String) (k : String) (h : acc.Nodup) :
    (insertKey acc k).Nodup := by
  unfold insertKey
  split
  · exact h
  · rename_i hk
    simpa [List.nodup_append, h] using hk

theorem nodup_foldl_insertKey (l : List String) :
    ∀ (acc : List String), acc.Nodup → (l.foldl insertKey acc).Nodup := by
  induction l with
  | nil => exact fun acc h => h
  | cons k l ih =>
    intro acc h
    exact ih _ (nodup_insertKey acc k h)

theorem nodup_firstKeys (l : List String) : (firstKeys l).Nodup :=
  nodup_foldl_insertKey l [] List.nodup_nil

theorem firstKeys_append_single (l : List String) (k : String) :
    firstKeys (l ++ [k]) = insertKey (firstKeys l) k := by
  unfold firstKeys
  rw [List.foldl_append]
  rfl

/- Lemmas about groups and the predicted table of a group. -/

theorem groupRows_append_single (rows : List TableListRow) (r : TableListRow)
    (k : String) :
    groupRows (rows ++ [r]) k =
      groupRows rows k ++ (if rowKey r = k then [r] else []) := by
  unfold groupRows
  rw [List.filter_append]
  congr 1
  by_cases h : rowKey r = k <;> simp [h]

theorem groupRows_eq_nil_iff (rows : List TableListRow) (k : String) :
    groupRows rows k = [] ↔ k ∉ rows.map rowKey := by
  unfold groupRows
  rw [List.filter_eq_nil_iff]
  simp only [List.mem_map, decide_eq_true_eq, not_exists, not_and]

theorem specTable_append_of_ne (rows : List TableListRow) (r : TableListRow)
    (k : String) (h : rowKey r ≠ k) :
    specTable (rows ++ [r]) k = specTable rows k := by
  unfold specTable
  rw [groupRows_append_single, if_neg h, List.append_nil]

theorem specTable_append_self_of_nil (rows : List TableListRow)
    (r : TableListRow) (h : groupRows rows (rowKey r) = []) :
    specTable (rows ++ [r]) (rowKey r) =
      some { mkTableShell (rowKey r) r with columns := [mkColumn r] } := by
  unfold specTable
  rw [groupRows_append_single, if_pos rfl, h, List.nil_append]
  rfl

theorem specTable_append_self_of_mem (rows : List TableListRow)
    (r : TableListRow) (h : groupRows rows (rowKey r) ≠ []) :
    specTable (rows ++ [r]) (rowKey r) =
      (specTable rows (rowKey r)).map
        (fun t => { t with columns := t.columns ++ [mkColumn r] }) := by
  unfold specTable
  rw [groupRows_append_single, if_pos rfl]
  cases hg : groupRows rows (rowKey r) with
  | nil => exact absurd hg h
  | cons r0 rs => simp

theorem specTable_isSome_of_mem (rows : List TableListRow) (key : String)
    (h : key ∈ rows.map rowKey) : (specTable rows key).isSome := by
  unfold specTable
  cases hg : groupRows rows key with
  | nil =>
    rw [groupRows_eq_nil_iff] at hg
    exact absurd h hg
  | cons r rs => rfl

/- Lemmas about the insertion-ordered dict as a keyed `filterMap`. -/

theorem fst_mem_of_mem_filterMap (l : List String) (f : String → Option Table)
    (p : String × Table)
    (hp : p ∈ l.filterMap (fun k => (f k).map (fun t => (k, t)))) :
    p.1 ∈ l := by
  simp only [List.mem_filterMap, Option.map_eq_some'] at hp
  obtain ⟨k, hk, t, _, hpt⟩ := hp
  rw [← hpt]
  exact hk

theorem containsKey_filterMap_of_not_mem (l : List String)
    (f : String → Option Table) (key : String) (h : key ∉ l) :
    containsKey (l.filterMap (fun k => (f k).map (fun t => (k, t)))) key
      = false := by
  unfold containsKey
  rw [List.any_eq_false]
  intro p hp
  simp only [decide_eq_true_eq]
  intro hpk
  exact h (hpk ▸ fst_mem_of_mem_filterMap l f p hp)

theorem containsKey_filterMap_of_mem (l : List String)
    (f : String → Option Table) (key : String) (hk : key ∈ l)
    (hs : (f key).isSome) :
    containsKey (l.filterMap (fun k => (f k).map (fun t => (k, t)))) key
      = true := by
  unfold containsKey
  rw [List.any_eq_true]
  obtain ⟨t, ht⟩ := Option.isSome_iff_exists.mp hs
  refine ⟨(key, t), ?_, by simp⟩
  simp only [List.mem_filterMap]
  exact ⟨key, hk, by rw [ht]; rfl⟩

theorem appendColumn_filterMap (l : List String) (f : String → Option Table)
    (key : String) (c : Column) (hnd : l.Nodup) :
    appendColumn (l.filterMap (fun k => (f k).map (fun t => (k, t)))) key c =
      l.filterMap (fun k =>
        ((if k = key
          then (f k).map (fun t => { t with columns := t.columns ++ [c] })
          else f k).map (fun t => (k, t)))) := by
  induction l with
  | nil => rfl
  | cons k l ih =>
    rw [List.nodup_cons] at hnd
    obtain ⟨hknl, hl⟩ := hnd
    by_cases hkey : k = key
    · subst hkey
      cases hf : f k with
      | none =>
        simp only [List.filterMap_cons, hf, Option.map_none', eq_self_iff_true,
          if_true]
        exact ih hl
      | some t =>
        simp only [List.filterMap_cons, hf, Option.map_some', eq_self_iff_true,
          if_true, appendColumn]
        congr 1
        apply List.filterMap_congr
        intro k2 hk2
        have hk2ne : ¬k2 = k := fun h => hknl (h ▸ hk2)
        rw [if_neg hk2ne]
    · cases hf : f k with
      | none =>
        simp only [List.filterMap_cons, hf, Option.map_none', hkey, if_false]
        exact ih hl
      | some t =>
        simp only [List.filterMap_cons, hf, Option.map_some', hkey, if_false,
          appendColumn]
        congr 1
        exact ih hl

theorem appendColumn_append_fresh (xs : List (String × Table)) (key : String)
    (t : Table) (c : Column) (h : ∀ p ∈ xs, p.1 ≠ key) :
    appendColumn (xs ++ [(key, t)]) key c =
      xs ++ [(key, { t with columns := t.columns ++ [c] })] := by
  induction xs with
  | nil =>
    rw [List.nil_append, List.nil_append]
    rw [appendColumn, if_pos rfl]
  | cons p xs ih =>
    obtain ⟨k0, t0⟩ := p
    rw [List.cons_append, List.cons_append]
    rw [appendColumn, if_neg (h (k0, t0) (List.mem_cons_self _ _))]
    congr 1
    exact ih (fun q hq => h q (List.mem_cons_of_mem _ hq))

/-- The accumulated dict of `get_table_list`'s loop equals the predicted
grouping: one keyed entry per distinct compact name in first-sighting
order. -/
theorem foldl_step_eq (rows : List TableListRow) :
    rows.foldl get_table_list_step [] =
      (firstKeys (rows.map rowKey)).filterMap
        (fun k => (specTable rows k).map (fun t => (k, t))) := by
  induction rows using List.reverseRecOn with
  | nil => rfl
  | append_singleton rows r ih =>
    rw [List.foldl_append, List.foldl_cons, List.foldl_nil, ih]
    rw [List.map_append]
    rw [show List.map rowKey [r] = [rowKey r] from rfl]
    rw [firstKeys_append_single]
    by_cases hmem : rowKey r ∈ rows.map rowKey
    · have hkL : rowKey r ∈ firstKeys (rows.map rowKey) :=
        (mem_firstKeys _ _).mpr hmem
      rw [insertKey, if_pos hkL]
      have hcontains :
          containsKey
            ((firstKeys (rows.map rowKey)).filterMap
              (fun k => (specTable rows k).map (fun t => (k, t)))) (rowKey r)
            = true :=
        containsKey_filterMap_of_mem _ _ _ hkL
          (specTable_isSome_of_mem rows (rowKey r) hmem)
      rw [get_table_list_step, hcontains, if_pos rfl]
      rw [appendColumn_filterMap _ _ _ _ (nodup_firstKeys _)]
      apply List.filterMap_congr
      intro k hk
      by_cases hkey : k = rowKey r
      · subst hkey
        rw [if_pos rfl]
        have hne : groupRows rows (rowKey r) ≠ [] := by
          rw [Ne, groupRows_eq_nil_iff]
          simpa using hmem
        rw [specTable_append_self_of_mem rows r hne, Option.map_map]
      · rw [if_neg hkey, specTable_append_of_ne rows r k (fun h => hkey h.symm)]
    · have hkL : rowKey r ∉ firstKeys (rows.map rowKey) :=
        fun h => hmem ((mem_firstKeys _ _).mp h)
      rw [insertKey, if_neg hkL]
      have hcontains :
          containsKey
            ((firstKeys (rows.map rowKey)).filterMap
              (fun k => (specTable rows k).map (fun t => (k, t)))) (rowKey r)
            = false :=
        containsKey_filterMap_of_not_mem _ _ _ hkL
      rw [get_table_list_step, hcontains, if_neg Bool.false_ne_true]
      have hfresh :
          ∀ p ∈ (firstKeys (rows.map rowKey)).filterMap
              (fun k => (specTable rows k).map (fun t => (k, t))),
            p.1 ≠ rowKey r :=
        fun p hp hpk => hkL (hpk ▸ fst_mem_of_mem_filterMap _ _ p hp)
      rw [appendColumn_append_fresh _ _ _ _ hfresh]
      rw [List.filterMap_append]
      congr 1
      · apply List.filterMap_congr
        intro k hk
        have hkne : rowKey r ≠ k :=
          fun h => hkL (h ▸ hk)
        rw [specTable_append_of_ne rows r k hkne]
      · have hnil : groupRows rows (rowKey r) = [] :=
          (groupRows_eq_nil_iff rows (rowKey r)).mpr hmem
        simp only [List.filterMap_cons, List.filterMap_nil,
          specTable_append_self_of_nil rows r hnil, Option.map_some']
        rfl

/-- `get_constraints`'s appending loop produces one constraint per row. -/
theorem get_constraints_eq_map (rows : List ShowImportedKeysRow) :
    get_constraints rows = rows.map mkConstraint := by
  unfold get_constraints
  induction rows using List.reverseRecOn with
  | nil => rfl
  | append_singleton rows r ih =>
    rw [List.foldl_append, List.foldl_cons, List.foldl_nil, ih, List.map_append]
    rfl

/-- Every table returned by `get_table_list` is the predicted table of some
compact name. -/
theorem mem_get_table_list (rows : List TableListRow) (t : Table)
    (ht : t ∈ get_table_list rows) : ∃ k, specTable rows k = some t := by
  unfold get_table_list at ht
  rw [foldl_step_eq, List.mem_map] at ht
  obtain ⟨p, hp, hpt⟩ := ht
  rw [List.mem_filterMap] at hp
  obtain ⟨k, hk, hkp⟩ := hp
  rw [Option.map_eq_some'] at hkp
  obtain ⟨u, hu, hup⟩ := hkp
  refine ⟨k, ?_⟩
  rw [hu, ← hpt, ← hup]

/-- The columns of a predicted table are exactly the group's rows mapped
through `mkColumn`, and the group is nonempty. -/
theorem specTable_columns (rows : List TableListRow) (k : String) (t : Table)
    (h : specTable rows k = some t) :
    t.columns = (groupRows rows k).map mkColumn := by
  unfold specTable at h
  cases hg : groupRows rows k with
  | nil => rw [hg] at h; exact absurd h (by simp)
  | cons r rs =>
    rw [hg] at h
    have := Option.some.inj h
    rw [← this]

/- ===================== Claim theorems ===================== -/

/-- C1: for every native type name string whose lower-cased form is not a
key of the Snowflake mapping table, `_transform_column_type` returns
`UNKNOWN`; being a total Lean function it never raises. -/
theorem transform_column_type_unmapped (t : String)
    (h : ∀ p ∈ switcher, p.1 ≠ pyLower t) :
    transform_column_type t = WrenEngineColumnType.UNKNOWN := by
  unfold transform_column_type
  have hl : switcher.lookup (pyLower t) = none := by
    rw [List.lookup_eq_none_iff]
    intro p hp
    simpa [bne_iff_ne] using (h p hp).symm
  rw [hl]
  rfl

theorem transform_column_type_unmapped_witness :
    (∀ p ∈ switcher, p.1 ≠ pyLower "GEOGRAPHY") ∧
      transform_column_type "GEOGRAPHY" = WrenEngineColumnType.UNKNOWN :=
  ⟨by decide, transform_column_type_unmapped "GEOGRAPHY" (by decide)⟩

/-- C2 (counterexample): over all strings the claimed case-insensitivity
fails in the program.  For `T = "ınt"` (U+0131, whose Unicode uppercase is
`I`), Python's `T.upper()` is `"INT"`: `_transform_column_type` maps `T`
to `UNKNOWN` but `T.upper()` to `INTEGER`. -/
theorem transform_column_type_case_insensitive_counterexample :
    pyUpperUnicode "ınt" = "INT" ∧
      transform_column_type "ınt" = WrenEngineColumnType.UNKNOWN ∧
      transform_column_type (pyUpperUnicode "ınt") =
        WrenEngineColumnType.INTEGER ∧
      transform_column_type (pyUpperUnicode "ınt") ≠
        transform_column_type "ınt" :=
  ⟨by decide, by decide, by decide, by decide⟩

/-- On ASCII characters the Unicode uppercase mapping is the ASCII fold. -/
theorem pyUpperChar_eq_toUpper_of_ascii (c : Char) (h : c.toNat < 128) :
    pyUpperChar c = Char.toUpper c := by
  unfold pyUpperChar
  rw [if_neg]
  intro hc
  rw [hc] at h
  exact absurd h (by decide)

/-- C2 (amended): `_transform_column_type` is case-insensitive on every
string consisting only of ASCII characters — applying it to such a string,
to its (Unicode) upper-cased form and to its lower-cased form yields the
same canonical type, mapped or not.  Over all Unicode strings the property
fails, see the counterexample. -/
theorem transform_column_type_case_insensitive_ascii (t : String)
    (h : ∀ c ∈ t.data, c.toNat < 128) :
    transform_column_type (pyUpperUnicode t) = transform_column_type t ∧
      transform_column_type (pyLower t) = transform_column_type t := by
  have hupper : pyUpperUnicode t = pyUpper t := by
    unfold pyUpperUnicode pyUpper
    congr 1
    exact List.map_congr_left (fun c hc => pyUpperChar_eq_toUpper_of_ascii c (h c hc))
  rw [hupper]
  unfold transform_column_type
  rw [pyLower_pyUpper, pyLower_pyLower]
  exact ⟨rfl, rfl⟩

theorem transform_column_type_case_insensitive_ascii_witness :
    (∀ c ∈ ("TimeStamp_TZ" : String).data, c.toNat < 128) ∧
      (transform_column_type (pyUpperUnicode "TimeStamp_TZ") =
          transform_column_type "TimeStamp_TZ" ∧
        transform_column_type (pyLower "TimeStamp_TZ") =
          transform_column_type "TimeStamp_TZ") :=
  ⟨by decide,
    transform_column_type_case_insensitive_ascii "TimeStamp_TZ" (by decide)⟩

/-- C3: `get_table_list` returns exactly one table per distinct compact
name `schema.table`, in insertion order of first sighting; each table is
the shell materialized from the first row of its group (description from
that row's table comment, `primaryKey = ""`) with one column appended per
group row in row order. -/
theorem get_table_list_grouped (rows : List TableListRow) :
    get_table_list rows =
      (firstKeys (rows.map rowKey)).filterMap (specTable rows) := by
  unfold get_table_list
  rw [foldl_step_eq, List.map_filterMap]
  apply List.filterMap_congr
  intro k hk
  cases h : specTable rows k <;> simp [h]

/-- C4: every column of every table returned by `get_table_list` comes
from some introspection row, and its `notNull` flag is true exactly when
that row's `IS_NULLABLE` field, compared case-insensitively, equals
`"NO"`. -/
theorem get_table_list_notNull (rows : List TableListRow) (t : Table)
    (c : Column) (ht : t ∈ get_table_list rows) (hc : c ∈ t.columns) :
    ∃ r ∈ rows, c = mkColumn r ∧
      c.notNull = (pyLower r.IS_NULLABLE == pyLower "NO") := by
  obtain ⟨k, hk⟩ := mem_get_table_list rows t ht
  rw [specTable_columns rows k t hk, List.mem_map] at hc
  obtain ⟨r, hr, hrc⟩ := hc
  have hrrows : r ∈ rows := List.mem_of_mem_filter hr
  refine ⟨r, hrrows, hrc.symm, ?_⟩
  rw [← hrc]
  rw [show pyLower "NO" = "no" from by decide]
  rfl

/-- A concrete introspection row for evaluating the table-list fold. -/
def sampleRow : TableListRow :=
  ⟨"DB", "S", "T", "C", "NUMBER", "NO", none, none⟩

/-- The column `get_table_list` builds from `sampleRow`. -/
def sampleColumn : Column :=
  { name := "C", type := WrenEngineColumnType.NUMERIC, notNull := true
  , description := none, properties := none }

/-- The table `get_table_list` builds from `[sampleRow]`. -/
def sampleTable : Table :=
  { name := "S.T", description := none, columns := [sampleColumn]
  , properties := { schema := "S", catalog := "DB", table := "T" }
  , primaryKey := "" }

theorem get_table_list_notNull_witness :
    sampleTable ∈ get_table_list [sampleRow] ∧
      sampleColumn ∈ sampleTable.columns ∧
      (∃ r ∈ [sampleRow], sampleColumn = mkColumn r ∧
        sampleColumn.notNull = (pyLower r.IS_NULLABLE == pyLower "NO")) :=
  ⟨by decide, by decide,
    get_table_list_notNull [sampleRow] sampleTable sampleColumn
      (by decide) (by decide)⟩

/-- C5: the smaller of the caller-requested limit and any limit embedded
in the SQL governs — caller limit 1 against an embedded `LIMIT 10` returns
exactly 1 row, caller limit 1 with no embedded limit returns exactly 1
row, and a caller limit never raises an existing embedded limit. -/
theorem executeWithLimit_caller_one (rows : List Nat)
    (h : 1 ≤ rows.length) :
    (executeWithLimit rows (some 10) (some 1)).length = 1 ∧
      (executeWithLimit rows none (some 1)).length = 1 ∧
      ∀ (l k : Nat), (executeWithLimit rows (some l) (some k)).length ≤ l := by
  refine ⟨?_, ?_, ?_⟩
  · show (List.take 1 (List.take 10 rows)).length = 1
    simp only [List.length_take]
    omega
  · show (List.take 1 rows).length = 1
    simp only [List.length_take]
    omega
  · intro l k
    show (List.take k (List.take l rows)).length ≤ l
    simp only [List.length_take]
    omega

theorem executeWithLimit_caller_one_witness :
    1 ≤ ([10, 20, 30] : List Nat).length ∧
      ((executeWithLimit [10, 20, 30] (some 10) (some 1)).length = 1 ∧
        (executeWithLimit ([10, 20, 30] : List Nat) none (some 1)).length = 1 ∧
        ∀ (l k : Nat),
          (executeWithLimit ([10, 20, 30] : List Nat) (some l)
            (some k)).length ≤ l) :=
  ⟨by decide, executeWithLimit_caller_one [10, 20, 30] (by decide)⟩

/-- C6: two zoned readings denoting the same instant via different display
zones format to the same normalized UTC string, and that string is the
plain fixed-precision rendering of the UTC instant suffixed with the zone
indicator — which the plain-timestamp formatter does not carry. -/
theorem formatTimestamptz_normalized (t₁ t₂ : ZonedTimestamp)
    (h : toUTCInstant t₁ = toUTCInstant t₂) :
    formatTimestamptz t₁ = formatTimestamptz t₂ ∧
      formatTimestamptz t₁ = formatTimestamp (toUTCInstant t₁) ++ " UTC" := by
  unfold toUTCInstant at h
  constructor
  · unfold formatTimestamptz
    rw [h]
  · unfold formatTimestamptz formatTimestamp toUTCInstant
    rw [String.append_assoc]
    congr 1

theorem formatTimestamptz_normalized_witness :
    toUTCInstant ⟨82000, -18000⟩ = toUTCInstant ⟨85600, -14400⟩ ∧
      (formatTimestamptz ⟨82000, -18000⟩ = formatTimestamptz ⟨85600, -14400⟩ ∧
        formatTimestamptz ⟨82000, -18000⟩ =
          formatTimestamp (toUTCInstant ⟨82000, -18000⟩) ++ " UTC") :=
  ⟨by decide, formatTimestamptz_normalized ⟨82000, -18000⟩ ⟨85600, -14400⟩
    (by decide)⟩

/-- C7: each produced constraint's `constraintName` is the referenced
table, referenced column, referencing table and referencing column joined
in that order by single underscores; being a function of the rows the
synthesis is deterministic. -/
theorem get_constraints_constraintName (rows : List ShowImportedKeysRow) :
    (get_constraints rows).map (fun c => c.constraintName) =
      rows.map (fun r =>
        r.pk_table_name ++ "_" ++ r.pk_column_name ++ "_" ++
          r.fk_table_name ++ "_" ++ r.fk_column_name) := by
  rw [get_constraints_eq_map, List.map_map]
  rfl

/-- C8: a constraint-discovery result of zero rows yields an empty
constraint list, not an error. -/
theorem get_constraints_nil : get_constraints [] = [] := rfl

/-- C10: each produced constraint carries the referenced (primary-key)
side in `constraintTable`/`constraintColumn` and the referencing
(foreign-key) side in `constraintedTable`/`constraintedColumn`, both table
names in compact `schema.table` form using each side's own schema, with
`constraintType` always `FOREIGN_KEY`. -/
theorem get_constraints_fields (rows : List ShowImportedKeysRow)
    (c : Constraint) (hc : c ∈ get_constraints rows) :
    ∃ r ∈ rows,
      c.constraintTable =
          _format_compact_table_name r.pk_schema_name r.pk_table_name ∧
        c.constraintColumn = r.pk_column_name ∧
        c.constraintedTable =
          _format_compact_table_name r.fk_schema_name r.fk_table_name ∧
        c.constraintedColumn = r.fk_column_name ∧
        c.constraintType = ConstraintType.FOREIGN_KEY := by
  rw [get_constraints_eq_map, List.mem_map] at hc
  obtain ⟨r, hr, hrc⟩ := hc
  refine ⟨r, hr, ?_⟩
  rw [← hrc]
  exact ⟨rfl, rfl, rfl, rfl, rfl⟩

/-- A concrete `SHOW IMPORTED KEYS` row for evaluating `get_constraints`. -/
def sampleKeyRow : ShowImportedKeysRow := ⟨"PS", "PT", "PC", "FS", "FT", "FC"⟩

theorem get_constraints_fields_witness :
    mkConstraint sampleKeyRow ∈ get_constraints [sampleKeyRow] ∧
      (∃ r ∈ [sampleKeyRow],
        (mkConstraint sampleKeyRow).constraintTable =
            _format_compact_table_name r.pk_schema_name r.pk_table_name ∧
          (mkConstraint sampleKeyRow).constraintColumn = r.pk_column_name ∧
          (mkConstraint sampleKeyRow).constraintedTable =
            _format_compact_table_name r.fk_schema_name r.fk_table_name ∧
          (mkConstraint sampleKeyRow).constraintedColumn = r.fk_column_name ∧
          (mkConstraint sampleKeyRow).constraintType =
            ConstraintType.FOREIGN_KEY) :=
  ⟨by decide,
    get_constraints_fields [sampleKeyRow] (mkConstraint sampleKeyRow)
      (by decide)⟩

/-- C9: a call whose parameters map misses at least one required parameter
fails naming exactly the first missing parameter in declared order; for
`column_is_valid` the order is `modelName` before `columnName`, so
supplying only `modelName` names `columnName` and supplying only
`columnName` names `modelName`. -/
theorem validateParameters_first_missing (required : List String)
    (parameters : List (String × String))
    (h : ∃ p ∈ required, parameters.lookup p = none) :
    (∃ pre p post,
        required = pre ++ p :: post ∧
          parameters.lookup p = none ∧
          (∀ q ∈ pre, (parameters.lookup q).isSome) ∧
          validateParameters required parameters =
            Except.error ("Missing required parameter: `" ++ p ++ "`")) ∧
      ∀ v : String,
        validateParameters column_is_valid_required [("modelName", v)] =
            Except.error "Missing required parameter: `columnName`" ∧
          validateParameters column_is_valid_required [("columnName", v)] =
            Except.error "Missing required parameter: `modelName`" := by
  constructor
  · have hs : (required.find?
        (fun p => (parameters.lookup p).isNone)).isSome := by
      rw [List.find?_isSome]
      obtain ⟨p, hp, hnone⟩ := h
      exact ⟨p, hp, by rw [hnone]; rfl⟩
    obtain ⟨p, hp⟩ := Option.isSome_iff_exists.mp hs
    rw [List.find?_eq_some] at hp
    obtain ⟨hpred, pre, post, hsplit, hpre⟩ := hp
    refine ⟨pre, p, post, hsplit, ?_, ?_, ?_⟩
    · rwa [Option.isNone_iff_eq_none] at hpred
    · intro q hq
      have := hpre q hq
      rwa [Bool.not_eq_true', Option.isNone_eq_false_iff] at this
    · have hfind : required.find? (fun p => (parameters.lookup p).isNone)
          = some p :=
        List.find?_eq_some.mpr ⟨hpred, pre, post, hsplit, hpre⟩
      unfold validateParameters firstMissingParameter
      rw [hfind]
  · intro v
    constructor
    · show validateParameters ["modelName", "columnName"] [("modelName", v)] = _
      simp [validateParameters, firstMissingParameter, List.find?, List.lookup]
    · show validateParameters ["modelName", "columnName"] [("columnName", v)] = _
      simp [validateParameters, firstMissingParameter, List.find?, List.lookup]

theorem validateParameters_first_missing_witness :
    (∃ p ∈ column_is_valid_required,
        ([("modelName", "Orders")] : List (String × String)).lookup p
          = none) ∧
      ((∃ pre p post,
          column_is_valid_required = pre ++ p :: post ∧
            ([("modelName", "Orders")] : List (String × String)).lookup p
              = none ∧
            (∀ q ∈ pre,
              (([("modelName", "Orders")] :
                List (String × String)).lookup q).isSome) ∧
            validateParameters column_is_valid_required
                [("modelName", "Orders")] =
              Except.error ("Missing required parameter: `" ++ p ++ "`")) ∧
        ∀ v : String,
          validateParameters column_is_valid_required [("modelName", v)] =
              Except.error "Missing required parameter: `columnName`" ∧
            validateParameters column_is_valid_required [("columnName", v)] =
              Except.error "Missing required parameter: `modelName`") :=
  ⟨by decide,
    validateParameters_first_missing column_is_valid_required
      [("modelName", "Orders")] (by decide)⟩

end Wren
